import Mathlib

/-!
OIDC client adapter (`pkg/restapi/common/oidc/client.go`).

A shallow embedding of the Go package `oidc` of the edge agent: the client that
builds authorization URLs, exchanges an authorization code for an OAuth2 token
and verifies the `id_token` found in it.

Modelling conventions.

* A Go pointer `*T` to a value that is never written is an `Option T` (`none` is
  the nil pointer).
* The `*Config` given to `NewClient` points to a variable of the caller. The
  closure that `NewClient` builds keeps the pointer and reads the variable each
  time it runs, so the pointer is what the variable holds in each state of the
  outside world (`σ → Config σ`): the caller may have written to it since.
* A Go method that may touch the outside world (a method of one of the
  interfaces of the package, or the code exchange of the `oauth2` library) is a
  state transformer over an arbitrary state type `σ`: the same method may answer
  differently on successive calls.
* `Eff σ α` is a computation over `σ` that also reports, in order, the calls it
  made across the package boundary (`Call`).
* Interface values handed to the package (`OIDCProvider`, `OIDCVerifier`,
  `OAuth2Token`) are taken to be non-nil.
* The libraries are not part of the package. `(*oauth2.Config).AuthCodeURL`, which
  only builds a string, is modelled after the library (with the part of `net/url`
  it uses); the code exchange and the validity of a token, which depend on the
  network and on the clock, are the fields of `OAuth2Lib`, a parameter of the
  development.
-/

namespace OidcClient

/-! ## Values of the Go runtime and of the imported libraries -/

/-- Values of the empty interface `interface{}`, by dynamic type. Only a value whose
dynamic type is exactly `string` is a `str`; a value of a defined type whose
underlying type is `string` is a `namedString`. -/
inductive GoValue where
  | nil
  | str (s : String)
  | bool (b : Bool)
  | int (i : Int)
  | namedString (typeName : String) (s : String)
  | other (typeName : String) (repr : String)
  deriving DecidableEq, Repr

/-- The comma-ok type assertion `v.(string)`: the string and `true` when the dynamic
type of `v` is `string`, the zero string and `false` otherwise. -/
def GoValue.assertString : GoValue → String × Bool
  | GoValue.str s => (s, true)
  | _ => ("", false)

/-- Values of the Go interface `error` that are not nil. `errorString` is what
`errors.New` returns, `wrapError` is what `fmt.Errorf` returns for a format with one
`%w`; `foreign` and `foreignWrap` stand for the error types of other packages,
without and with an `Unwrap` method. -/
inductive GoError where
  | errorString (s : String)
  | wrapError (msg : String) (err : GoError)
  | foreign (typeName : String) (msg : String)
  | foreignWrap (typeName : String) (msg : String) (err : GoError)
  deriving DecidableEq, Repr

/-- The method `Error()`. -/
def GoError.Error : GoError → String
  | GoError.errorString s => s
  | GoError.wrapError msg _ => msg
  | GoError.foreign _ msg => msg
  | GoError.foreignWrap _ msg _ => msg

/-- The function `errors.Unwrap`: the wrapped error, or nil. -/
def GoError.Unwrap : GoError → Option GoError
  | GoError.errorString _ => none
  | GoError.wrapError _ err => some err
  | GoError.foreign _ _ => none
  | GoError.foreignWrap _ _ err => some err

/-- The call `fmt.Errorf(format)` for a format without verbs: `errors.New(format)`. -/
def fmt.Errorf (format : String) : GoError :=
  GoError.errorString format

/-- The call `fmt.Errorf(text + "%w", err)` for a text without verbs and a non-nil
`err`: `%w` prints its operand as `%v` does, which for an error is `err.Error()`, so
the message is the text followed by `err.Error()`; `err` is kept as the wrapped
error. -/
def fmt.ErrorfW (text : String) (err : GoError) : GoError :=
  GoError.wrapError (text ++ err.Error) err

/-- The struct `tls.Config` (the fields the development distinguishes). -/
structure tls.Config where
  ServerName : String
  InsecureSkipVerify : Bool
  RootCAs : List String
  Certificates : List String
  deriving DecidableEq, Repr

/-- The struct `http.Transport`; fields other than `TLSClientConfig` are left at their
zero value by the package. -/
structure http.Transport where
  TLSClientConfig : Option tls.Config
  deriving DecidableEq, Repr

/-- The struct `http.Client`; `Transport` holds a `*http.Transport`. -/
structure http.Client where
  Transport : Option http.Transport
  deriving DecidableEq, Repr

/-- Keys of context values: the key `oauth2.HTTPClient` and any other key. -/
inductive ContextKey where
  | HTTPClient
  | key (name : String)
  deriving DecidableEq, Repr

/-- Values stored in a context: a `*http.Client` or any other value. -/
inductive ContextValue where
  | httpClient (c : http.Client)
  | value (v : GoValue)
  deriving DecidableEq, Repr

/-- A `context.Context`: a root context of the caller (with whatever deadline or
cancellation it carries, named by `id`) or `context.WithValue(parent, key, val)`. -/
inductive Context where
  | root (id : Nat)
  | WithValue (parent : Context) (key : ContextKey) (val : ContextValue)
  deriving DecidableEq, Repr

/-- The method `Value(key)`: the value of the innermost `WithValue` for the key. -/
def Context.Value : Context → ContextKey → Option ContextValue
  | Context.root _, _ => none
  | Context.WithValue parent key val, k => if k = key then some val else parent.Value k

/-! ## The part of `strings` and `net/url` that `AuthCodeURL` uses -/

/-- The function `strings.Join`. -/
def strings.Join : List String → String → String
  | [], _ => ""
  | [a], _ => a
  | a :: b :: rest, sep => a ++ sep ++ strings.Join (b :: rest) sep

/-- The order of Go strings, on the characters of two strings: the byte-wise order of
their UTF-8 encodings, which is the order of their code points. -/
def strings.less : List Char → List Char → Bool
  | [], [] => false
  | [], _ :: _ => true
  | _ :: _, [] => false
  | a :: as, b :: bs =>
    if a.toNat < b.toNat then true
    else if b.toNat < a.toNat then false
    else strings.less as bs

/-- The text before the first occurrence of `c` (all of it when there is none). -/
def strings.before (c : Char) : List Char → List Char
  | [] => []
  | x :: xs => if x = c then [] else x :: strings.before c xs

/-- The text after the first occurrence of `c` (empty when there is none). -/
def strings.after (c : Char) : List Char → List Char
  | [] => []
  | x :: xs => if x = c then xs else strings.after c xs

/-- Putting a character in front of the first piece of a split text. -/
def strings.consFirst (x : Char) : List (List Char) → List (List Char)
  | [] => [[x]]
  | p :: ps => (x :: p) :: ps

/-- The function `strings.Split` for a separator of one character. -/
def strings.split (c : Char) : List Char → List (List Char)
  | [] => [[]]
  | x :: xs => if x = c then [] :: strings.split c xs else strings.consFirst x (strings.split c xs)

/-- The bytes of the UTF-8 encoding of a character. -/
def utf8Bytes (c : Char) : List Nat :=
  if c.toNat < 128 then [c.toNat]
  else if c.toNat < 2048 then [192 + c.toNat / 64, 128 + c.toNat % 64]
  else if c.toNat < 65536 then
    [224 + c.toNat / 4096, 128 + c.toNat / 64 % 64, 128 + c.toNat % 64]
  else
    [240 + c.toNat / 262144, 128 + c.toNat / 4096 % 64, 128 + c.toNat / 64 % 64,
      128 + c.toNat % 64]

/-- The upper-case hexadecimal digit of a number below 16. -/
def url.hexDigit (n : Nat) : Char :=
  "0123456789ABCDEF".data.getD n '0'

/-- Whether `url.QueryEscape` keeps the character as it is: an ASCII letter or digit, or
one of `-`, `_`, `.`, `~`. -/
def url.unreserved (c : Char) : Bool :=
  c.isAlphanum || c == '-' || c == '_' || c == '.' || c == '~'

/-- What `url.QueryEscape` writes for one character: the character itself, `+` for a
space, and `%XX` for each byte of any other character. -/
def url.escapeChar (c : Char) : List Char :=
  if url.unreserved c then [c]
  else if c = ' ' then ['+']
  else (utf8Bytes c).flatMap (fun b => ['%', url.hexDigit (b / 16), url.hexDigit (b % 16)])

/-- The function `url.QueryEscape`. -/
def url.QueryEscape (s : String) : String :=
  String.mk (s.data.flatMap url.escapeChar)

/-- The type `url.Values`, for keys with one value each: the pairs of key and value, kept
in the order of the keys, which is the order `Encode` writes them in. -/
abbrev url.Values : Type :=
  List (String × String)

/-- The method `url.Values.Set`: the key gets the value, in place of the one it had. -/
def url.Values.Set : url.Values → String → String → url.Values
  | [], key, value => [(key, value)]
  | (k, x) :: rest, key, value =>
    if strings.less key.data k.data then (key, value) :: (k, x) :: rest
    else if key = k then (key, value) :: rest
    else (k, x) :: url.Values.Set rest key value

/-- One `key=value` of an encoded query, both escaped. -/
def url.encodePair (key value : String) : String :=
  url.QueryEscape key ++ "=" ++ url.QueryEscape value

/-- The method `url.Values.Encode`: the escaped pairs, joined by `&`. -/
def url.Values.Encode (v : url.Values) : String :=
  strings.Join (v.map (fun p => url.encodePair p.1 p.2)) "&"

/-- The pieces of the query of a URL: the text between the first `?` and the fragment
(which starts at the first `#` of the URL), split at each `&`. -/
def url.queryPieces (u : String) : List (List Char) :=
  strings.split '&' (strings.after '?' (strings.before '#' u.data))

/-- The URL has the query parameter `key` with the value `value`: one of the pieces of
its query is `key=value`, escaped as `url.QueryEscape` does. -/
def url.hasQueryParam (u : String) (key value : String) : Prop :=
  (url.encodePair key value).data ∈ url.queryPieces u

instance (u key value : String) : Decidable (url.hasQueryParam u key value) :=
  inferInstanceAs (Decidable (_ ∈ _))

/-- The struct `oauth2.Endpoint`. -/
structure oauth2.Endpoint where
  AuthURL : String
  TokenURL : String
  AuthStyle : Nat
  deriving DecidableEq, Repr

/-- The struct `oauth2.Config`. -/
structure oauth2.Config where
  ClientID : String
  ClientSecret : String
  Endpoint : oauth2.Endpoint
  RedirectURL : String
  Scopes : List String
  deriving DecidableEq, Repr

/-- An `oauth2.AuthCodeOption`: a URL parameter to set. -/
structure oauth2.AuthCodeOption where
  key : String
  value : String
  deriving DecidableEq, Repr

/-- The struct `oauth2.Token`. -/
structure oauth2.Token where
  AccessToken : String
  TokenType : String
  RefreshToken : String
  Expiry : Int
  raw : List (String × GoValue)
  deriving DecidableEq, Repr

/-- The struct `oidc.Config` of go-oidc (without its clock function). -/
structure gooidc.Config where
  ClientID : String
  SupportedSigningAlgs : List String := []
  SkipClientIDCheck : Bool := false
  SkipExpiryCheck : Bool := false
  SkipIssuerCheck : Bool := false
  deriving DecidableEq, Repr

/-- The struct `oidc.IDToken` of go-oidc. -/
structure gooidc.IDToken where
  Issuer : String
  Audience : List String
  Subject : String
  Expiry : Int
  IssuedAt : Int
  Nonce : String
  claims : String
  deriving DecidableEq, Repr

/-- The query values of `(*oauth2.Config).AuthCodeURL`: `response_type` and `client_id`
always; `redirect_uri`, `scope` (the scopes joined by spaces) and `state` only when
they are not empty; then the options, each a `Set`. -/
def oauth2.Config.authCodeValues (c : oauth2.Config) (state : String)
    (options : List oauth2.AuthCodeOption) : url.Values :=
  let v0 : url.Values :=
    url.Values.Set (url.Values.Set [] "response_type" "code") "client_id" c.ClientID
  let v1 := if c.RedirectURL ≠ "" then url.Values.Set v0 "redirect_uri" c.RedirectURL else v0
  let v2 :=
    if 0 < c.Scopes.length then url.Values.Set v1 "scope" (strings.Join c.Scopes " ") else v1
  let v3 := if state ≠ "" then url.Values.Set v2 "state" state else v2
  options.foldl (fun v o => url.Values.Set v o.key o.value) v3

/-- The method `(*oauth2.Config).AuthCodeURL` of the library: the authorization URL of
the endpoint, then `?` (or `&` when that URL already has a `?`), then the encoded
query values. -/
def oauth2.Config.AuthCodeURL (c : oauth2.Config) (state : String)
    (options : List oauth2.AuthCodeOption) : String :=
  c.Endpoint.AuthURL ++ (if '?' ∈ c.Endpoint.AuthURL.data then "&" else "?")
    ++ (c.authCodeValues state options).Encode

/-! ## Calls across the package boundary -/

/-- A call that leaves the package, with its arguments: a method of the provider, of
a verifier, of an `OAuth2Token`, or of the `oauth2` library. -/
inductive Call where
  | Endpoint
  | Verifier (config : Option gooidc.Config)
  | Verify (ctx : Context) (rawIDToken : String)
  | Extra (key : String)
  | AuthCodeURL (oc : oauth2.Config) (state : String) (options : List oauth2.AuthCodeOption)
  | Exchange (oc : oauth2.Config) (ctx : Context) (code : String)
      (options : List oauth2.AuthCodeOption)
  deriving DecidableEq, Repr

/-- Whether the call is `OIDCProvider.Verifier` or `OIDCVerifier.Verify`. -/
def Call.isVerification : Call → Bool
  | Call.Verifier _ => true
  | Call.Verify _ _ => true
  | _ => false

/-- What a computation leaves behind: its return value, the state of the outside
world, and the calls it made across the package boundary, oldest first. -/
structure Outcome (σ : Type) (α : Type) where
  ret : α
  state : σ
  calls : List Call

/-- A computation over the outside world `σ`. -/
def Eff (σ : Type) (α : Type) : Type :=
  σ → Outcome σ α

/-- The computation that returns `a` and calls nothing. -/
def Eff.pure {σ α : Type} (a : α) : Eff σ α :=
  fun s => { ret := a, state := s, calls := [] }

/-- Sequencing: run `m`, then `f` on its result from the state `m` left. -/
def Eff.bind {σ α β : Type} (m : Eff σ α) (f : α → Eff σ β) : Eff σ β :=
  fun s =>
    { ret := (f (m s).ret (m s).state).ret
      state := (f (m s).ret (m s).state).state
      calls := (m s).calls ++ (f (m s).ret (m s).state).calls }

instance (σ : Type) : Monad (Eff σ) where
  pure := Eff.pure
  bind := Eff.bind

/-- One call across the package boundary: `f` is the callee, `c` its record. -/
def invoke {σ α : Type} (c : Call) (f : σ → α × σ) : Eff σ α :=
  fun s => { ret := (f s).1, state := (f s).2, calls := [c] }

/-- Reading the outside world without changing it. -/
def observe {σ α : Type} (f : σ → α) : Eff σ α :=
  fun s => { ret := f s, state := s, calls := [] }

/-! ## The interfaces of the package -/

/-- The interface `OIDCVerifier`. -/
structure OIDCVerifier (σ : Type) where
  Verify : Context → String → σ → (Option gooidc.IDToken × Option GoError) × σ

/-- The interface `OIDCProvider`. -/
structure OIDCProvider (σ : Type) where
  Endpoint : σ → oauth2.Endpoint × σ
  Verifier : Option gooidc.Config → σ → OIDCVerifier σ × σ

/-- Values of the interface `IDToken`: the nil interface, or a `*oidc.IDToken`. -/
inductive IDToken where
  | nil
  | ptr (p : Option gooidc.IDToken)
  deriving DecidableEq, Repr

/-- The entry points of the `oauth2` library that depend on the outside world:
`(*oauth2.Config).Exchange`, and `(*oauth2.Token).Valid` (which reads the clock, and
accepts a nil receiver). -/
structure OAuth2Lib (σ : Type) where
  Exchange : oauth2.Config → Context → String → List oauth2.AuthCodeOption → σ →
    (Option oauth2.Token × Option GoError) × σ
  TokenValid : Option oauth2.Token → σ → Bool

/-- The interface `oauth2Config`. -/
structure oauth2Config (σ : Type) where
  AuthCodeURL : String → List oauth2.AuthCodeOption → Eff σ String
  Exchange : Context → String → List oauth2.AuthCodeOption →
    Eff σ (Option oauth2.Token × Option GoError)

/-- The struct `oauth2ConfigImpl`. -/
structure oauth2ConfigImpl where
  oc : oauth2.Config

/-- The method `(*oauth2ConfigImpl).AuthCodeURL`. -/
def oauth2ConfigImpl.AuthCodeURL {σ : Type} (o : oauth2ConfigImpl)
    (state : String) (options : List oauth2.AuthCodeOption) : Eff σ String :=
  invoke (Call.AuthCodeURL o.oc state options) (fun s => (o.oc.AuthCodeURL state options, s))

/-- The method `(*oauth2ConfigImpl).Exchange`. -/
def oauth2ConfigImpl.Exchange {σ : Type} (lib : OAuth2Lib σ) (o : oauth2ConfigImpl)
    (ctx : Context) (code : String) (options : List oauth2.AuthCodeOption) :
    Eff σ (Option oauth2.Token × Option GoError) :=
  invoke (Call.Exchange o.oc ctx code options) (lib.Exchange o.oc ctx code options)

/-- An `*oauth2ConfigImpl` as a value of the interface `oauth2Config`. -/
def oauth2ConfigImpl.asInterface {σ : Type} (lib : OAuth2Lib σ) (o : oauth2ConfigImpl) :
    oauth2Config σ :=
  { AuthCodeURL := oauth2ConfigImpl.AuthCodeURL o
    Exchange := oauth2ConfigImpl.Exchange lib o }

/-- The interface `OAuth2Token`. -/
structure OAuth2Token (σ : Type) where
  Extra : String → σ → GoValue × σ
  Valid : σ → Bool × σ

/-- The struct `Client`. -/
structure Client (σ : Type) where
  provider : OIDCProvider σ
  oauth2ConfigSupplier : Eff σ (oauth2Config σ)
  clientID : String
  tlsConfig : Option tls.Config

/-- The struct `Config`. Its `Provider` is a provider, not the nil interface. -/
structure Config (σ : Type) where
  TLSConfig : Option tls.Config
  Provider : OIDCProvider σ
  CallbackURL : String
  ClientID : String
  ClientSecret : String
  Scopes : List String

/-! ## The operations of the package -/

/-- The function `NewClient`, called in the state `s` with the pointer `config`. The
composite literal sets `provider` and `clientID` from what the `Config` holds now, and
`oauth2ConfigSupplier`; `tlsConfig` is not among its fields and keeps the zero value of
`*tls.Config`, nil. The supplier is a closure over the pointer: each time it runs it
reads the `Config` again, asks the provider found there for its endpoint and builds a
fresh `oauth2ConfigImpl`. Go leaves open whether the other fields are read before or
after the call of `Endpoint()`; they are read after it here, as the gc compiler does,
and for a provider that leaves the `Config` of the caller alone the two agree. -/
def NewClient {σ : Type} (lib : OAuth2Lib σ) (config : σ → Config σ) (s : σ) : Client σ :=
  { provider := (config s).Provider
    oauth2ConfigSupplier := do
      let provider ← observe (fun now => (config now).Provider)
      let endpoint ← invoke Call.Endpoint provider.Endpoint
      let current ← observe config
      pure (oauth2ConfigImpl.asInterface lib
        { oc :=
          { ClientID := current.ClientID
            ClientSecret := current.ClientSecret
            Endpoint := endpoint
            RedirectURL := current.CallbackURL
            Scopes := current.Scopes } })
    clientID := (config s).ClientID
    tlsConfig := none }

/-- The method `(*Client).FormatRequest`. -/
def Client.FormatRequest {σ : Type} (c : Client σ) (state : String) : Eff σ String := do
  let oc ← c.oauth2ConfigSupplier
  oc.AuthCodeURL state []

/-- The method `(*Client).Exchange`. The receiver of `Exchange` is evaluated first (the
supplier runs), then the context argument is built; the validity of the token is a
method of the library, which reads the clock. -/
def Client.Exchange {σ : Type} (lib : OAuth2Lib σ) (c : Client σ) (ctx : Context)
    (code : String) : Eff σ (Option oauth2.Token × Option GoError) := do
  let oc ← c.oauth2ConfigSupplier
  let r ← oc.Exchange
    (Context.WithValue ctx ContextKey.HTTPClient
      (ContextValue.httpClient { Transport := some { TLSClientConfig := c.tlsConfig } }))
    code []
  match r.2 with
  | some err => pure (none, some (fmt.ErrorfW "failed to exchange code for token: " err))
  | none =>
    let valid ← observe (lib.TokenValid r.1)
    if !valid then
      pure (none, some (fmt.Errorf "server returned an invalid token"))
    else
      pure (r.1, none)

/-- The method `(*Client).VerifyIDToken`. The error paths return the nil interface, the
last one the `*oidc.IDToken` of the verifier as an `IDToken`. -/
def Client.VerifyIDToken {σ : Type} (c : Client σ) (ctx : Context)
    (oauthToken : OAuth2Token σ) : Eff σ (IDToken × Option GoError) := do
  let extra ← invoke (Call.Extra "id_token") (oauthToken.Extra "id_token")
  if !extra.assertString.2 then
    pure (IDToken.nil, some (fmt.Errorf "missing id_token"))
  else
    let verifier ← invoke (Call.Verifier (some { ClientID := c.clientID }))
      (c.provider.Verifier (some { ClientID := c.clientID }))
    let r ← invoke (Call.Verify ctx extra.assertString.1)
      (verifier.Verify ctx extra.assertString.1)
    match r.2 with
    | some err => pure (IDToken.nil, some (fmt.ErrorfW "failed to verify id_token: " err))
    | none => pure (IDToken.ptr r.1, none)

/-! ## Test doubles used to instantiate the theorems -/

/-- An ID token a verifier double hands out. -/
def sampleIDToken : gooidc.IDToken :=
  { Issuer := "https://op.example", Audience := ["client-1"], Subject := "alice",
    Expiry := 2000, IssuedAt := 1000, Nonce := "", claims := "" }

/-- An OAuth2 token that never expires. -/
def sampleToken : oauth2.Token :=
  { AccessToken := "at-1", TokenType := "Bearer", RefreshToken := "", Expiry := 0,
    raw := [("id_token", GoValue.str "raw.id.token")] }

/-- An OAuth2 token without an access token. -/
def emptyToken : oauth2.Token :=
  { AccessToken := "", TokenType := "Bearer", RefreshToken := "", Expiry := 0, raw := [] }

/-- A transport error. -/
def sampleError : GoError :=
  GoError.foreign "*url.Error" "Post https://op.example/token: connection refused"

/-- A verifier double: accepts every raw token when `ok`, rejects every one otherwise;
  the state counts the calls made on the doubles. -/
def stubVerifier (ok : Bool) : OIDCVerifier Nat :=
  { Verify := fun _ _ n =>
      (if ok then (some sampleIDToken, none)
        else (none, some (GoError.foreign "oidc" "signature invalid")), n + 1) }

/-- A provider double with fixed endpoints. -/
def stubProvider (ok : Bool) : OIDCProvider Nat :=
  { Endpoint := fun n =>
      ({ AuthURL := "https://op.example/auth", TokenURL := "https://op.example/token",
         AuthStyle := 0 }, n + 1)
    Verifier := fun _ n => (stubVerifier ok, n + 1) }

/-- A stand-in for the `oauth2` library: the exchange answers with the given pair, a
  token is valid when it is not nil and has an access token. -/
def stubLib (answer : Option oauth2.Token × Option GoError) : OAuth2Lib Nat :=
  { Exchange := fun _ _ _ _ n => (answer, n + 1)
    TokenValid := fun t _ =>
      match t with
      | none => false
      | some t => !(t.AccessToken == "") }

/-- A TLS configuration with a private CA pool. -/
def sampleTLS : tls.Config :=
  { ServerName := "op.example", InsecureSkipVerify := false, RootCAs := ["private-ca"],
    Certificates := [] }

/-- A client configuration over the doubles. -/
def sampleConfig (ok : Bool) : Config Nat :=
  { TLSConfig := some sampleTLS
    Provider := stubProvider ok
    CallbackURL := "https://rp.example/callback"
    ClientID := "client-1"
    ClientSecret := "secret"
    Scopes := ["openid", "profile"] }

/-- An `OAuth2Token` double whose every extra field is `v`. -/
def stubOAuth2Token (v : GoValue) : OAuth2Token Nat :=
  { Extra := fun _ n => (v, n + 1)
    Valid := fun n => (true, n) }


/-- A `*Config` whose variable always holds `sampleConfig ok`. -/
def fixedConfig (ok : Bool) : Nat → Config Nat :=
  fun _ => sampleConfig ok

/-- A verifier double that answers with an ID token issued to the client id it was made
  for. -/
def echoVerifier (clientID : String) : OIDCVerifier Nat :=
  { Verify := fun _ _ n => ((some { sampleIDToken with Audience := [clientID] }, none), n + 1) }

/-- A provider double whose verifiers are made for the client id of the `oidc.Config`
  they are asked with. -/
def echoProvider : OIDCProvider Nat :=
  { Endpoint := fun n =>
      ({ AuthURL := "https://op.example/auth", TokenURL := "https://op.example/token",
         AuthStyle := 0 }, n + 1)
    Verifier := fun config n =>
      (echoVerifier (match config with
        | some c => c.ClientID
        | none => ""), n + 1) }

/-- A stand-in for the `oauth2` library whose exchange answers with a token that tells
  what it was given: the client id as access token, the token URL as refresh token. -/
def echoLib : OAuth2Lib Nat :=
  { Exchange := fun oc _ _ _ n =>
      ((some { sampleToken with
                AccessToken := oc.ClientID
                RefreshToken := oc.Endpoint.TokenURL }, none), n + 1)
    TokenValid := fun t _ =>
      match t with
      | none => false
      | some t => !(t.AccessToken == "") }

/-- A `*Config` whose variable the caller writes to: it holds the client id `client-1` in
  the states below 5 and `client-2` from the state 5 on. -/
def rewrittenConfig : Nat → Config Nat :=
  fun n =>
    { sampleConfig true with
      Provider := echoProvider
      ClientID := if n < 5 then "client-1" else "client-2" }

/-- A `*Config` without callback URL. -/
def noCallbackConfig : Nat → Config Nat :=
  fun _ => { sampleConfig true with CallbackURL := "" }

/-- A `*Config` whose provider has an authorization URL with a fragment. -/
def fragmentConfig : Nat → Config Nat :=
  fun _ =>
    { sampleConfig true with
      Provider :=
        { Endpoint := fun n =>
            ({ AuthURL := "https://op.example/auth#login",
               TokenURL := "https://op.example/token", AuthStyle := 0 }, n + 1)
          Verifier := fun _ n => (stubVerifier true, n + 1) } }

/-! ## Facts about the library model -/

/-- A hexadecimal digit is neither `&` nor `#`. -/
theorem url.hexDigit_safe (n : Nat) : url.hexDigit n ≠ '&' ∧ url.hexDigit n ≠ '#' := by
  rcases Nat.lt_or_ge n 16 with h | h
  · interval_cases n <;> decide
  · have hd : url.hexDigit n = '0' := by
      unfold url.hexDigit
      have hlen : "0123456789ABCDEF".data.length = 16 := by decide
      rw [List.getD_eq_getElem?_getD, List.getElem?_eq_none (by omega)]
      rfl
    rw [hd]
    constructor <;> decide

/-- The escaped form of a character has neither `&` nor `#`. -/
theorem url.escapeChar_safe (c x : Char) (hx : x ∈ url.escapeChar c) : x ≠ '&' ∧ x ≠ '#' := by
  unfold url.escapeChar at hx
  split at hx
  · rename_i hu
    simp at hx
    subst hx
    constructor
    · intro h
      subst h
      exact absurd hu (by decide)
    · intro h
      subst h
      exact absurd hu (by decide)
  · split at hx
    · simp at hx
      subst hx
      constructor <;> decide
    · simp only [List.mem_flatMap] at hx
      obtain ⟨b, _, hb⟩ := hx
      simp at hb
      rcases hb with hb | hb | hb
      · subst hb
        constructor <;> decide
      · subst hb
        exact url.hexDigit_safe _
      · subst hb
        exact url.hexDigit_safe _

/-- An escaped string has neither `&` nor `#`. -/
theorem url.QueryEscape_safe (s : String) (x : Char) (hx : x ∈ (url.QueryEscape s).data) :
    x ≠ '&' ∧ x ≠ '#' := by
  unfold url.QueryEscape at hx
  simp only [List.mem_flatMap] at hx
  obtain ⟨c, _, hc⟩ := hx
  exact url.escapeChar_safe c x hc

/-- An encoded pair has neither `&` nor `#`. -/
theorem url.encodePair_safe (key value : String) (x : Char)
    (hx : x ∈ (url.encodePair key value).data) : x ≠ '&' ∧ x ≠ '#' := by
  unfold url.encodePair at hx
  simp only [String.data_append, List.mem_append] at hx
  rcases hx with (hx | hx) | hx
  · exact url.QueryEscape_safe key x hx
  · have : x = '=' := by simpa using hx
    subst this
    constructor <;> decide
  · exact url.QueryEscape_safe value x hx

/-- A text without `c` is its own part before `c`. -/
theorem strings.before_of_not_mem (c : Char) (l : List Char) (h : c ∉ l) :
    strings.before c l = l := by
  induction l with
  | nil => rfl
  | cons x xs ih =>
    have hx : x ≠ c := fun e => h (by simp [e])
    have hxs : c ∉ xs := fun e => h (by simp [e])
    simp [strings.before, hx, ih hxs]

/-- After a text without `c`, followed by `c`, comes the rest. -/
theorem strings.after_append_of_not_mem (c : Char) (a b : List Char) (h : c ∉ a) :
    strings.after c (a ++ c :: b) = b := by
  induction a with
  | nil => simp [strings.after]
  | cons x xs ih =>
    have hx : x ≠ c := fun e => h (by simp [e])
    have hxs : c ∉ xs := fun e => h (by simp [e])
    simp [strings.after, hx, ih hxs]

/-- After the first `c` of a text that has one, what is appended stays appended. -/
theorem strings.after_append_of_mem (c : Char) (a b : List Char) (h : c ∈ a) :
    strings.after c (a ++ b) = strings.after c a ++ b := by
  induction a with
  | nil => simp at h
  | cons x xs ih =>
    by_cases hx : x = c
    · simp [strings.after, hx]
    · have hxs : c ∈ xs := by
        rcases List.mem_cons.1 h with e | e
        · exact absurd e.symm hx
        · exact e
      simp [strings.after, hx, ih hxs]

/-- A split text has a first piece. -/
theorem strings.split_ne_nil (c : Char) (l : List Char) : strings.split c l ≠ [] := by
  induction l with
  | nil => simp [strings.split]
  | cons x xs ih =>
    unfold strings.split
    split
    · simp
    · cases h : strings.split c xs with
      | nil => exact absurd h ih
      | cons p ps => simp [strings.consFirst]

/-- A text without `c` is one piece. -/
theorem strings.split_of_not_mem (c : Char) (l : List Char) (h : c ∉ l) :
    strings.split c l = [l] := by
  induction l with
  | nil => rfl
  | cons x xs ih =>
    have hx : x ≠ c := fun e => h (by simp [e])
    have hxs : c ∉ xs := fun e => h (by simp [e])
    simp [strings.split, hx, ih hxs, strings.consFirst]

/-- The pieces of a text that does not start with `c`. -/
theorem strings.split_cons_of_ne (c x : Char) (l : List Char) (hx : x ≠ c) :
    strings.split c (x :: l) = strings.consFirst x (strings.split c l) := by
  simp [strings.split, hx]

/-- Splitting two texts joined by `c` gives the pieces of the one, then of the other. -/
theorem strings.split_append (c : Char) (a b : List Char) :
    strings.split c (a ++ c :: b) = strings.split c a ++ strings.split c b := by
  induction a with
  | nil => simp [strings.split]
  | cons x xs ih =>
    by_cases hx : x = c
    · simp [strings.split, hx, ih]
    · rw [List.cons_append, strings.split_cons_of_ne c x _ hx,
        strings.split_cons_of_ne c x _ hx, ih]
      cases h : strings.split c xs with
      | nil => exact absurd h (strings.split_ne_nil c xs)
      | cons p ps => rfl

/-- Splitting at `&` the join by `&` of texts without `&` gives the texts back. -/
theorem strings.split_Join (ps : List String) (hne : ps ≠ [])
    (h : ∀ p ∈ ps, '&' ∉ p.data) :
    strings.split '&' (strings.Join ps "&").data = ps.map String.data := by
  induction ps with
  | nil => exact absurd rfl hne
  | cons a rest ih =>
    cases rest with
    | nil =>
      simp only [strings.Join, List.map]
      exact strings.split_of_not_mem '&' a.data (h a (by simp))
    | cons b rest2 =>
      have hrec := ih (by simp) (fun p hp => h p (by simp at hp ⊢; right; exact hp))
      have hdata : (strings.Join (a :: b :: rest2) "&").data
          = a.data ++ '&' :: (strings.Join (b :: rest2) "&").data := by
        simp [strings.Join, String.data_append]
      rw [hdata, strings.split_append, hrec,
        strings.split_of_not_mem '&' a.data (h a (by simp))]
      simp

/-- The join by `&` of texts without `#` has no `#`. -/
theorem strings.Join_safe (ps : List String) (h : ∀ p ∈ ps, '#' ∉ p.data) :
    '#' ∉ (strings.Join ps "&").data := by
  induction ps with
  | nil => simp [strings.Join]
  | cons a rest ih =>
    cases rest with
    | nil => simpa [strings.Join] using h a (by simp)
    | cons b rest2 =>
      have hrec := ih (fun p hp => h p (by simp at hp ⊢; right; exact hp))
      have ha := h a (by simp)
      simp only [strings.Join, String.data_append, List.mem_append, not_or]
      refine ⟨⟨ha, by decide⟩, hrec⟩

/-- The pieces of an encoded query are its encoded pairs. -/
theorem url.split_Encode (v : url.Values) (hne : v ≠ []) :
    strings.split '&' (url.Values.Encode v).data
      = v.map (fun p => (url.encodePair p.1 p.2).data) := by
  unfold url.Values.Encode
  rw [strings.split_Join]
  · simp [List.map_map, Function.comp]
  · cases v with
    | nil => exact absurd rfl hne
    | cons p ps => simp
  · intro p hp hmem
    simp only [List.mem_map] at hp
    obtain ⟨q, _, hq⟩ := hp
    subst hq
    exact (url.encodePair_safe q.1 q.2 '&' hmem).1 rfl

/-- An encoded query has no `#`. -/
theorem url.Encode_safe (v : url.Values) : '#' ∉ (url.Values.Encode v).data := by
  unfold url.Values.Encode
  apply strings.Join_safe
  intro p hp hmem
  simp only [List.mem_map] at hp
  obtain ⟨q, _, hq⟩ := hp
  subst hq
  exact (url.encodePair_safe q.1 q.2 '#' hmem).2 rfl

/-- After `Set`, the key has the value. -/
theorem url.Values.mem_Set (v : url.Values) (key value : String) :
    (key, value) ∈ url.Values.Set v key value := by
  induction v with
  | nil => simp [url.Values.Set]
  | cons p rest ih =>
    obtain ⟨k, x⟩ := p
    unfold url.Values.Set
    split
    · simp
    · split
      · simp
      · exact List.mem_cons_of_mem _ ih

/-- What `Set` does to a key leaves the other keys as they were. -/
theorem url.Values.mem_Set_of_mem (v : url.Values) (key value k x : String)
    (hk : k ≠ key) (h : (k, x) ∈ v) : (k, x) ∈ url.Values.Set v key value := by
  induction v with
  | nil => simp at h
  | cons p rest ih =>
    obtain ⟨k2, x2⟩ := p
    unfold url.Values.Set
    split
    · exact List.mem_cons_of_mem _ h
    · split
      · rename_i heq
        rcases List.mem_cons.1 h with e | e
        · have : k = k2 := (Prod.mk.inj e).1
          exact absurd (this.trans heq.symm) hk
        · exact List.mem_cons_of_mem _ e
      · rcases List.mem_cons.1 h with e | e
        · rw [e]
          exact List.mem_cons_self _ _
        · exact List.mem_cons_of_mem _ (ih e)

/-- After `Set`, there is a value. -/
theorem url.Values.Set_ne_nil (v : url.Values) (key value : String) :
    url.Values.Set v key value ≠ [] := by
  intro h
  have := url.Values.mem_Set v key value
  rw [h] at this
  simp at this

/-- A URL made of a text without fragment, `?` or `&` as `AuthCodeURL` chooses it, and an
encoded query, has each pair of that query as a query parameter. -/
theorem url.hasQueryParam_of_mem (a : String) (v : url.Values) (key value : String)
    (ha : '#' ∉ a.data) (h : (key, value) ∈ v) :
    url.hasQueryParam (a ++ (if '?' ∈ a.data then "&" else "?") ++ url.Values.Encode v)
      key value := by
  have hne : v ≠ [] := by
    intro e
    rw [e] at h
    simp at h
  have henc : (url.encodePair key value).data
      ∈ strings.split '&' (url.Values.Encode v).data := by
    rw [url.split_Encode v hne]
    exact List.mem_map.2 ⟨(key, value), h, rfl⟩
  unfold url.hasQueryParam url.queryPieces
  by_cases hq : '?' ∈ a.data
  · have hdata : (a ++ (if '?' ∈ a.data then "&" else "?") ++ url.Values.Encode v).data
        = a.data ++ '&' :: (url.Values.Encode v).data := by
      simp [hq, String.data_append]
    have hfrag : '#' ∉ a.data ++ '&' :: (url.Values.Encode v).data := by
      simp only [List.mem_append, List.mem_cons, not_or]
      exact ⟨ha, by decide, url.Encode_safe v⟩
    rw [hdata, strings.before_of_not_mem '#' _ hfrag, strings.after_append_of_mem '?' _ _ hq,
      strings.split_append]
    exact List.mem_append_right _ henc
  · have hdata : (a ++ (if '?' ∈ a.data then "&" else "?") ++ url.Values.Encode v).data
        = a.data ++ '?' :: (url.Values.Encode v).data := by
      simp [hq, String.data_append]
    have hfrag : '#' ∉ a.data ++ '?' :: (url.Values.Encode v).data := by
      simp only [List.mem_append, List.mem_cons, not_or]
      exact ⟨ha, by decide, url.Encode_safe v⟩
    rw [hdata, strings.before_of_not_mem '#' _ hfrag,
      strings.after_append_of_not_mem '?' _ _ hq]
    exact henc

/-- The query values of `AuthCodeURL` without options: the response type and the client
id, and the redirect URL, the scopes and the state that are not empty. -/
theorem oauth2.Config.mem_authCodeValues (c : oauth2.Config) (state : String) :
    ("response_type", "code") ∈ c.authCodeValues state [] ∧
    ("client_id", c.ClientID) ∈ c.authCodeValues state [] ∧
    (c.RedirectURL ≠ "" → ("redirect_uri", c.RedirectURL) ∈ c.authCodeValues state []) ∧
    (c.Scopes ≠ [] → ("scope", strings.Join c.Scopes " ") ∈ c.authCodeValues state []) ∧
    (state ≠ "" → ("state", state) ∈ c.authCodeValues state []) := by
  have keep : ∀ (v : url.Values) (p : Prop) [Decidable p] (key value k x : String),
      k ≠ key → (k, x) ∈ v → (k, x) ∈ (if p then url.Values.Set v key value else v) := by
    intro v p _ key value k x hk h
    split
    · exact url.Values.mem_Set_of_mem v key value k x hk h
    · exact h
  have h0r : ("response_type", "code") ∈
      url.Values.Set (url.Values.Set [] "response_type" "code") "client_id" c.ClientID :=
    url.Values.mem_Set_of_mem _ _ _ _ _ (by decide) (url.Values.mem_Set _ _ _)
  have h0c : ("client_id", c.ClientID) ∈
      url.Values.Set (url.Values.Set [] "response_type" "code") "client_id" c.ClientID :=
    url.Values.mem_Set _ _ _
  unfold oauth2.Config.authCodeValues
  simp only [List.foldl_nil]
  refine ⟨?_, ?_, ?_, ?_, ?_⟩
  · exact keep _ _ _ _ _ _ (by decide) (keep _ _ _ _ _ _ (by decide)
      (keep _ _ _ _ _ _ (by decide) h0r))
  · exact keep _ _ _ _ _ _ (by decide) (keep _ _ _ _ _ _ (by decide)
      (keep _ _ _ _ _ _ (by decide) h0c))
  · intro hr
    refine keep _ _ _ _ _ _ (by decide) (keep _ _ _ _ _ _ (by decide) ?_)
    rw [if_pos hr]
    exact url.Values.mem_Set _ _ _
  · intro hs
    refine keep _ _ _ _ _ _ (by decide) ?_
    rw [if_pos (List.length_pos.2 hs)]
    exact url.Values.mem_Set _ _ _
  · intro hs
    rw [if_pos hs]
    exact url.Values.mem_Set _ _ _

/-! ## Theorems -/

/-- What `FormatRequest` does on a client built by `NewClient`: it asks the provider the
  `Config` holds now for its endpoint, and returns `AuthCodeURL` of the `oauth2.Config`
  built from that endpoint and from what the `Config` holds then. -/
theorem FormatRequest_of_NewClient {σ : Type} (lib : OAuth2Lib σ) (config : σ → Config σ)
    (s0 : σ) (state : String) (s : σ) :
    Client.FormatRequest (NewClient lib config s0) state s
      = { ret := oauth2.Config.AuthCodeURL
            { ClientID := (config ((config s).Provider.Endpoint s).2).ClientID
              ClientSecret := (config ((config s).Provider.Endpoint s).2).ClientSecret
              Endpoint := ((config s).Provider.Endpoint s).1
              RedirectURL := (config ((config s).Provider.Endpoint s).2).CallbackURL
              Scopes := (config ((config s).Provider.Endpoint s).2).Scopes } state []
          state := ((config s).Provider.Endpoint s).2
          calls :=
            [Call.Endpoint,
             Call.AuthCodeURL
              { ClientID := (config ((config s).Provider.Endpoint s).2).ClientID
                ClientSecret := (config ((config s).Provider.Endpoint s).2).ClientSecret
                Endpoint := ((config s).Provider.Endpoint s).1
                RedirectURL := (config ((config s).Provider.Endpoint s).2).CallbackURL
                Scopes := (config ((config s).Provider.Endpoint s).2).Scopes } state []] } :=
  rfl

/-- The calls of `Exchange` on a client built by `NewClient`, whatever the library
  answers: `Endpoint()` of the provider, then the exchange of the library. -/
theorem Exchange_calls_of_NewClient {σ : Type} (lib : OAuth2Lib σ) (config : σ → Config σ)
    (s0 : σ) (ctx : Context) (code : String) (s : σ) :
    (Client.Exchange lib (NewClient lib config s0) ctx code s).calls
      = [Call.Endpoint,
         Call.Exchange
          { ClientID := (config ((config s).Provider.Endpoint s).2).ClientID
            ClientSecret := (config ((config s).Provider.Endpoint s).2).ClientSecret
            Endpoint := ((config s).Provider.Endpoint s).1
            RedirectURL := (config ((config s).Provider.Endpoint s).2).CallbackURL
            Scopes := (config ((config s).Provider.Endpoint s).2).Scopes }
          (Context.WithValue ctx ContextKey.HTTPClient
            (ContextValue.httpClient { Transport := some { TLSClientConfig := none } }))
          code []] := by
  cases hr : (lib.Exchange
      { ClientID := (config ((config s).Provider.Endpoint s).2).ClientID
        ClientSecret := (config ((config s).Provider.Endpoint s).2).ClientSecret
        Endpoint := ((config s).Provider.Endpoint s).1
        RedirectURL := (config ((config s).Provider.Endpoint s).2).CallbackURL
        Scopes := (config ((config s).Provider.Endpoint s).2).Scopes }
      (Context.WithValue ctx ContextKey.HTTPClient
        (ContextValue.httpClient { Transport := some { TLSClientConfig := none } }))
      code [] ((config s).Provider.Endpoint s).2).1.2 with
  | some e =>
    simp [Client.Exchange, NewClient, bind, Eff.bind, pure, Eff.pure, invoke, observe,
      oauth2ConfigImpl.asInterface, oauth2ConfigImpl.Exchange, hr]
  | none =>
    simp only [Client.Exchange, NewClient, bind, Eff.bind, pure, Eff.pure, invoke, observe,
      oauth2ConfigImpl.asInterface, oauth2ConfigImpl.Exchange, hr]
    split <;> simp [Eff.pure]

/-- The state `Exchange` leaves on a client built by `NewClient`: the one the exchange of
  the library left. -/
theorem Exchange_state_of_NewClient {σ : Type} (lib : OAuth2Lib σ) (config : σ → Config σ)
    (s0 : σ) (ctx : Context) (code : String) (s : σ) :
    (Client.Exchange lib (NewClient lib config s0) ctx code s).state
      = (lib.Exchange
          { ClientID := (config ((config s).Provider.Endpoint s).2).ClientID
            ClientSecret := (config ((config s).Provider.Endpoint s).2).ClientSecret
            Endpoint := ((config s).Provider.Endpoint s).1
            RedirectURL := (config ((config s).Provider.Endpoint s).2).CallbackURL
            Scopes := (config ((config s).Provider.Endpoint s).2).Scopes }
          (Context.WithValue ctx ContextKey.HTTPClient
            (ContextValue.httpClient { Transport := some { TLSClientConfig := none } }))
          code [] ((config s).Provider.Endpoint s).2).2 := by
  cases hr : (lib.Exchange
      { ClientID := (config ((config s).Provider.Endpoint s).2).ClientID
        ClientSecret := (config ((config s).Provider.Endpoint s).2).ClientSecret
        Endpoint := ((config s).Provider.Endpoint s).1
        RedirectURL := (config ((config s).Provider.Endpoint s).2).CallbackURL
        Scopes := (config ((config s).Provider.Endpoint s).2).Scopes }
      (Context.WithValue ctx ContextKey.HTTPClient
        (ContextValue.httpClient { Transport := some { TLSClientConfig := none } }))
      code [] ((config s).Provider.Endpoint s).2).1.2 with
  | some e =>
    simp [Client.Exchange, NewClient, bind, Eff.bind, pure, Eff.pure, invoke, observe,
      oauth2ConfigImpl.asInterface, oauth2ConfigImpl.Exchange, hr]
  | none =>
    simp only [Client.Exchange, NewClient, bind, Eff.bind, pure, Eff.pure, invoke, observe,
      oauth2ConfigImpl.asInterface, oauth2ConfigImpl.Exchange, hr]
    split <;> simp [Eff.pure]

/-- What `Exchange` returns on a client built by `NewClient`, from what the exchange of
  the library returns: the wrapped error of a failed exchange, and the token of an
  exchange that gave a valid one. -/
theorem Exchange_ret_of_NewClient {σ : Type} (lib : OAuth2Lib σ) (config : σ → Config σ)
    (s0 : σ) (ctx : Context) (code : String) (s : σ) :
    (∀ (token : Option oauth2.Token) (e : GoError),
      (lib.Exchange
          { ClientID := (config ((config s).Provider.Endpoint s).2).ClientID
            ClientSecret := (config ((config s).Provider.Endpoint s).2).ClientSecret
            Endpoint := ((config s).Provider.Endpoint s).1
            RedirectURL := (config ((config s).Provider.Endpoint s).2).CallbackURL
            Scopes := (config ((config s).Provider.Endpoint s).2).Scopes }
          (Context.WithValue ctx ContextKey.HTTPClient
            (ContextValue.httpClient { Transport := some { TLSClientConfig := none } }))
          code [] ((config s).Provider.Endpoint s).2).1 = (token, some e) →
      (Client.Exchange lib (NewClient lib config s0) ctx code s).ret
        = (none, some (GoError.wrapError
            ("failed to exchange code for token: " ++ e.Error) e))) ∧
    (∀ token : Option oauth2.Token,
      (lib.Exchange
          { ClientID := (config ((config s).Provider.Endpoint s).2).ClientID
            ClientSecret := (config ((config s).Provider.Endpoint s).2).ClientSecret
            Endpoint := ((config s).Provider.Endpoint s).1
            RedirectURL := (config ((config s).Provider.Endpoint s).2).CallbackURL
            Scopes := (config ((config s).Provider.Endpoint s).2).Scopes }
          (Context.WithValue ctx ContextKey.HTTPClient
            (ContextValue.httpClient { Transport := some { TLSClientConfig := none } }))
          code [] ((config s).Provider.Endpoint s).2).1 = (token, none) →
      lib.TokenValid token (Client.Exchange lib (NewClient lib config s0) ctx code s).state
        = true →
      (Client.Exchange lib (NewClient lib config s0) ctx code s).ret = (token, none)) := by
  constructor
  · intro token e h
    simp [Client.Exchange, NewClient, bind, Eff.bind, pure, Eff.pure, invoke, observe,
      oauth2ConfigImpl.asInterface, oauth2ConfigImpl.Exchange, h, fmt.ErrorfW]
  · intro token h hv
    rw [Exchange_state_of_NewClient] at hv
    simp [Client.Exchange, NewClient, bind, Eff.bind, pure, Eff.pure, invoke, observe,
      oauth2ConfigImpl.asInterface, oauth2ConfigImpl.Exchange, h, hv]

/-- The calls of `VerifyIDToken`: `Extra("id_token")`, followed, when the value is a
  string, by `Verifier` of the provider and `Verify` of the verifier it returned. -/
theorem VerifyIDToken_calls {σ : Type} (c : Client σ) (ctx : Context)
    (oauthToken : OAuth2Token σ) (s : σ) :
    (Client.VerifyIDToken c ctx oauthToken s).calls
      = if (oauthToken.Extra "id_token" s).1.assertString.2 then
          [Call.Extra "id_token", Call.Verifier (some { ClientID := c.clientID }),
           Call.Verify ctx (oauthToken.Extra "id_token" s).1.assertString.1]
        else [Call.Extra "id_token"] := by
  cases hf : (oauthToken.Extra "id_token" s).1.assertString.2 with
  | false =>
    simp [Client.VerifyIDToken, bind, Eff.bind, pure, Eff.pure, invoke, hf]
  | true =>
    cases hr : ((c.provider.Verifier (some { ClientID := c.clientID })
        (oauthToken.Extra "id_token" s).2).1.Verify ctx
        (oauthToken.Extra "id_token" s).1.assertString.1
        (c.provider.Verifier (some { ClientID := c.clientID })
          (oauthToken.Extra "id_token" s).2).2).1.2 with
    | none =>
      simp [Client.VerifyIDToken, bind, Eff.bind, pure, Eff.pure, invoke, hf, hr]
    | some e =>
      simp [Client.VerifyIDToken, bind, Eff.bind, pure, Eff.pure, invoke, hf, hr]

/-- C1. For a client built by `NewClient`, when the exchange of the `oauth2` configuration
  returns the error `e`, `Client.Exchange` returns the nil token and an error that
  unwraps to `e` and whose message is "failed to exchange code for token: " followed by
  the message of `e`; no call of `Verifier` or `Verify` is made. -/
theorem Exchange_wraps_exchange_error {σ : Type} (lib : OAuth2Lib σ) (config : σ → Config σ)
    (s0 : σ) (ctx : Context) (code : String) (s s1 : σ) (endpoint : oauth2.Endpoint)
    (token : Option oauth2.Token) (e : GoError)
    (hep : (config s).Provider.Endpoint s = (endpoint, s1))
    (h : (lib.Exchange
            { ClientID := (config s1).ClientID
              ClientSecret := (config s1).ClientSecret
              Endpoint := endpoint
              RedirectURL := (config s1).CallbackURL
              Scopes := (config s1).Scopes }
            (Context.WithValue ctx ContextKey.HTTPClient
              (ContextValue.httpClient
                { Transport := some { TLSClientConfig := (NewClient lib config s0).tlsConfig } }))
            code [] s1).1 = (token, some e)) :
    ∃ err : GoError,
      (Client.Exchange lib (NewClient lib config s0) ctx code s).ret = (none, some err) ∧
      err.Unwrap = some e ∧
      err.Error = "failed to exchange code for token: " ++ e.Error ∧
      ∀ c ∈ (Client.Exchange lib (NewClient lib config s0) ctx code s).calls,
        c.isVerification = false := by
  refine ⟨fmt.ErrorfW "failed to exchange code for token: " e, ?_, rfl, rfl, ?_⟩
  · apply (Exchange_ret_of_NewClient lib config s0 ctx code s).1 token e
    rw [hep]
    exact h
  · rw [Exchange_calls_of_NewClient]
    simp [Call.isVerification]

/-- The witness of C1: the library double answers with a transport error. -/
theorem Exchange_wraps_exchange_error_witness :
    (fixedConfig true 0).Provider.Endpoint 0
      = ({ AuthURL := "https://op.example/auth", TokenURL := "https://op.example/token",
           AuthStyle := 0 }, 1) ∧
    ((stubLib (none, some sampleError)).Exchange
        { ClientID := (fixedConfig true 1).ClientID
          ClientSecret := (fixedConfig true 1).ClientSecret
          Endpoint :=
            { AuthURL := "https://op.example/auth", TokenURL := "https://op.example/token",
              AuthStyle := 0 }
          RedirectURL := (fixedConfig true 1).CallbackURL
          Scopes := (fixedConfig true 1).Scopes }
        (Context.WithValue (Context.root 7) ContextKey.HTTPClient
          (ContextValue.httpClient
            { Transport := some { TLSClientConfig :=
                (NewClient (stubLib (none, some sampleError)) (fixedConfig true) 0).tlsConfig } }))
        "code-1" [] 1).1 = (none, some sampleError) ∧
    ∃ err : GoError,
      (Client.Exchange (stubLib (none, some sampleError))
        (NewClient (stubLib (none, some sampleError)) (fixedConfig true) 0)
        (Context.root 7) "code-1" 0).ret = (none, some err) ∧
      err.Unwrap = some sampleError ∧
      err.Error = "failed to exchange code for token: " ++ sampleError.Error ∧
      ∀ c ∈ (Client.Exchange (stubLib (none, some sampleError))
        (NewClient (stubLib (none, some sampleError)) (fixedConfig true) 0)
        (Context.root 7) "code-1" 0).calls, c.isVerification = false :=
  ⟨rfl, rfl,
    Exchange_wraps_exchange_error (stubLib (none, some sampleError)) (fixedConfig true) 0
      (Context.root 7) "code-1" 0 1
      { AuthURL := "https://op.example/auth", TokenURL := "https://op.example/token",
        AuthStyle := 0 }
      none sampleError rfl rfl⟩

/-- C2. For every client, when the exchange of its `oauth2` configuration returns a nil
  error and a token that is not valid, `Client.Exchange` returns the nil token and the
  error "server returned an invalid token". That error wraps nothing and its message is
  no "failed to exchange code for token: ..." message; the error `Client.Exchange`
  returns when the underlying exchange fails with a cause `e` wraps `e`, is another
  error value and has another message. -/
theorem Exchange_rejects_invalid_token {σ : Type} (lib : OAuth2Lib σ) (c : Client σ)
    (ctx : Context) (code : String) (s : σ) (token : Option oauth2.Token)
    (h : ((c.oauth2ConfigSupplier s).ret.Exchange
            (Context.WithValue ctx ContextKey.HTTPClient
              (ContextValue.httpClient { Transport := some { TLSClientConfig := c.tlsConfig } }))
            code [] (c.oauth2ConfigSupplier s).state).ret = (token, none))
    (hv : lib.TokenValid token
          ((c.oauth2ConfigSupplier s).ret.Exchange
            (Context.WithValue ctx ContextKey.HTTPClient
              (ContextValue.httpClient { Transport := some { TLSClientConfig := c.tlsConfig } }))
            code [] (c.oauth2ConfigSupplier s).state).state = false) :
    (Client.Exchange lib c ctx code s).ret
        = (none, some (GoError.errorString "server returned an invalid token")) ∧
    (GoError.errorString "server returned an invalid token").Unwrap = none ∧
    (∀ m : String, (GoError.errorString "server returned an invalid token").Error
        ≠ "failed to exchange code for token: " ++ m) ∧
    ∀ (c2 : Client σ) (ctx2 : Context) (code2 : String) (s2 : σ) (e : GoError),
      ((c2.oauth2ConfigSupplier s2).ret.Exchange
          (Context.WithValue ctx2 ContextKey.HTTPClient
            (ContextValue.httpClient { Transport := some { TLSClientConfig := c2.tlsConfig } }))
          code2 [] (c2.oauth2ConfigSupplier s2).state).ret.2 = some e →
      ∃ err : GoError,
        (Client.Exchange lib c2 ctx2 code2 s2).ret = (none, some err) ∧
        err.Unwrap = some e ∧
        err ≠ GoError.errorString "server returned an invalid token" ∧
        err.Error ≠ (GoError.errorString "server returned an invalid token").Error := by
  have hmsg : ∀ m : String,
      "server returned an invalid token" ≠ "failed to exchange code for token: " ++ m := by
    intro m hm
    have hd := congrArg String.data hm
    simp [String.data_append] at hd
  refine ⟨?_, rfl, ?_, ?_⟩
  · simp [Client.Exchange, bind, Eff.bind, pure, Eff.pure, observe, fmt.Errorf, h, hv]
  · intro m
    exact hmsg m
  · intro c2 ctx2 code2 s2 e he
    refine ⟨fmt.ErrorfW "failed to exchange code for token: " e, ?_, rfl, ?_, ?_⟩
    · simp [Client.Exchange, bind, Eff.bind, pure, Eff.pure, he]
    · simp [fmt.ErrorfW]
    · intro hm
      exact hmsg e.Error hm.symm

/-- The witness of C2: the library double answers a token without access token. -/
theorem Exchange_rejects_invalid_token_witness :
    (((NewClient (stubLib (some emptyToken, none)) (fixedConfig true) 0).oauth2ConfigSupplier
          0).ret.Exchange
        (Context.WithValue (Context.root 7) ContextKey.HTTPClient
          (ContextValue.httpClient { Transport := some { TLSClientConfig :=
            (NewClient (stubLib (some emptyToken, none)) (fixedConfig true) 0).tlsConfig } }))
        "code-1" []
        ((NewClient (stubLib (some emptyToken, none)) (fixedConfig true) 0).oauth2ConfigSupplier
          0).state).ret = (some emptyToken, none) ∧
    (stubLib (some emptyToken, none)).TokenValid (some emptyToken) 2 = false ∧
    (Client.Exchange (stubLib (some emptyToken, none))
        (NewClient (stubLib (some emptyToken, none)) (fixedConfig true) 0)
        (Context.root 7) "code-1" 0).ret
      = (none, some (GoError.errorString "server returned an invalid token")) :=
  ⟨rfl, rfl,
    (Exchange_rejects_invalid_token (stubLib (some emptyToken, none))
      (NewClient (stubLib (some emptyToken, none)) (fixedConfig true) 0)
      (Context.root 7) "code-1" 0 (some emptyToken) rfl rfl).1⟩

/-- C3, at a configuration with a TLS configuration: the HTTP client that `Exchange`
  installs in the context under the key `oauth2.HTTPClient` has a transport whose
  `TLSClientConfig` is nil, not the `TLSConfig` of the `Config` given to `NewClient`. -/
theorem Exchange_installs_nil_TLSClientConfig :
    (fixedConfig true 0).TLSConfig = some sampleTLS ∧
    (NewClient (stubLib (some sampleToken, none)) (fixedConfig true) 0).tlsConfig = none ∧
    (Client.Exchange (stubLib (some sampleToken, none))
        (NewClient (stubLib (some sampleToken, none)) (fixedConfig true) 0)
        (Context.root 7) "code-1" 0).calls
      = [Call.Endpoint,
         Call.Exchange
          { ClientID := "client-1", ClientSecret := "secret",
            Endpoint :=
              { AuthURL := "https://op.example/auth", TokenURL := "https://op.example/token",
                AuthStyle := 0 },
            RedirectURL := "https://rp.example/callback", Scopes := ["openid", "profile"] }
          (Context.WithValue (Context.root 7) ContextKey.HTTPClient
            (ContextValue.httpClient { Transport := some { TLSClientConfig := none } }))
          "code-1" []] ∧
    (Context.WithValue (Context.root 7) ContextKey.HTTPClient
        (ContextValue.httpClient { Transport := some { TLSClientConfig := none } })).Value
        ContextKey.HTTPClient
      ≠ some (ContextValue.httpClient
          { Transport := some { TLSClientConfig := (fixedConfig true 0).TLSConfig } }) := by
  refine ⟨rfl, rfl, rfl, ?_⟩
  decide

/-- C4. For every client and every `OAuth2Token`: when `Extra("id_token")` is not a
  string, `VerifyIDToken` returns the nil ID token and the error "missing id_token", and
  calls neither `Verifier` nor `Verify`; when it is a string, the empty one included, the
  error returned, if any, is not the "missing id_token" error and has another message. -/
theorem VerifyIDToken_missing_id_token {σ : Type} (c : Client σ) (ctx : Context)
    (oauthToken : OAuth2Token σ) (s : σ) :
    ((∀ raw : String, (oauthToken.Extra "id_token" s).1 ≠ GoValue.str raw) →
      (Client.VerifyIDToken c ctx oauthToken s).ret
          = (IDToken.nil, some (GoError.errorString "missing id_token")) ∧
      ∀ call ∈ (Client.VerifyIDToken c ctx oauthToken s).calls,
        call.isVerification = false) ∧
    (∀ raw : String, (oauthToken.Extra "id_token" s).1 = GoValue.str raw →
      (Client.VerifyIDToken c ctx oauthToken s).ret.2
          ≠ some (GoError.errorString "missing id_token") ∧
      ∀ err : GoError, (Client.VerifyIDToken c ctx oauthToken s).ret.2 = some err →
        err.Error ≠ "missing id_token") := by
  have hmsg : ∀ m : String, "failed to verify id_token: " ++ m ≠ "missing id_token" := by
    intro m hm
    have hd := congrArg String.data hm
    simp [String.data_append] at hd
  constructor
  · intro hno
    have hfound : (oauthToken.Extra "id_token" s).1.assertString.2 = false := by
      cases hx : (oauthToken.Extra "id_token" s).1 with
      | str raw => exact absurd hx (hno raw)
      | nil => rfl
      | bool b => rfl
      | int i => rfl
      | namedString t v => rfl
      | other t r => rfl
    simp [Client.VerifyIDToken, bind, Eff.bind, pure, Eff.pure, invoke, fmt.Errorf, hfound,
      Call.isVerification]
  · intro raw hraw
    have hfound : (oauthToken.Extra "id_token" s).1.assertString = (raw, true) := by
      rw [hraw]
      rfl
    cases hr : ((c.provider.Verifier (some { ClientID := c.clientID })
        (oauthToken.Extra "id_token" s).2).1.Verify ctx raw
        (c.provider.Verifier (some { ClientID := c.clientID })
          (oauthToken.Extra "id_token" s).2).2).1.2 with
    | none =>
      simp [Client.VerifyIDToken, bind, Eff.bind, pure, Eff.pure, invoke, hfound, hr]
    | some e =>
      simp [Client.VerifyIDToken, bind, Eff.bind, pure, Eff.pure, invoke, hfound, hr,
        fmt.ErrorfW, GoError.Error]
      exact hmsg e.Error

/-- The witness of C4: a token double without `id_token` (its extra fields are nil). -/
theorem VerifyIDToken_missing_id_token_witness :
    (∀ raw : String, ((stubOAuth2Token GoValue.nil).Extra "id_token" 0).1 ≠ GoValue.str raw) ∧
    (Client.VerifyIDToken (NewClient (stubLib (none, none)) (fixedConfig true) 0)
        (Context.root 7) (stubOAuth2Token GoValue.nil) 0).ret
      = (IDToken.nil, some (GoError.errorString "missing id_token")) :=
  ⟨fun _ h => GoValue.noConfusion h,
    ((VerifyIDToken_missing_id_token (NewClient (stubLib (none, none)) (fixedConfig true) 0)
      (Context.root 7) (stubOAuth2Token GoValue.nil) 0).1
        (fun _ h => GoValue.noConfusion h)).1⟩

/-- C5. For every client and every `OAuth2Token` whose `Extra("id_token")` is the string
  `raw`: when `Verify` of the verifier the provider hands out fails on `raw` with the
  error `e`, `VerifyIDToken` returns the nil ID token and an error that unwraps to `e` and
  whose message is "failed to verify id_token: " followed by the message of `e`. -/
theorem VerifyIDToken_wraps_verifier_error {σ : Type} (c : Client σ) (ctx : Context)
    (oauthToken : OAuth2Token σ) (s s1 s2 : σ) (raw : String) (verifier : OIDCVerifier σ)
    (idToken : Option gooidc.IDToken) (e : GoError)
    (hx : oauthToken.Extra "id_token" s = (GoValue.str raw, s1))
    (hp : c.provider.Verifier (some { ClientID := c.clientID }) s1 = (verifier, s2))
    (hv : (verifier.Verify ctx raw s2).1 = (idToken, some e)) :
    ∃ err : GoError,
      (Client.VerifyIDToken c ctx oauthToken s).ret = (IDToken.nil, some err) ∧
      err.Unwrap = some e ∧
      err.Error = "failed to verify id_token: " ++ e.Error := by
  refine ⟨fmt.ErrorfW "failed to verify id_token: " e, ?_, rfl, rfl⟩
  simp [Client.VerifyIDToken, bind, Eff.bind, pure, Eff.pure, invoke, hx, hp, hv,
    GoValue.assertString]

/-- The witness of C5: the verifier double rejects every raw token. -/
theorem VerifyIDToken_wraps_verifier_error_witness :
    (stubOAuth2Token (GoValue.str "raw.id.token")).Extra "id_token" 0
      = (GoValue.str "raw.id.token", 1) ∧
    (NewClient (stubLib (none, none)) (fixedConfig false) 0).provider.Verifier
        (some { ClientID := (NewClient (stubLib (none, none)) (fixedConfig false) 0).clientID }) 1
      = (stubVerifier false, 2) ∧
    ((stubVerifier false).Verify (Context.root 7) "raw.id.token" 2).1
      = (none, some (GoError.foreign "oidc" "signature invalid")) ∧
    ∃ err : GoError,
      (Client.VerifyIDToken (NewClient (stubLib (none, none)) (fixedConfig false) 0)
        (Context.root 7) (stubOAuth2Token (GoValue.str "raw.id.token")) 0).ret
        = (IDToken.nil, some err) ∧
      err.Unwrap = some (GoError.foreign "oidc" "signature invalid") ∧
      err.Error = "failed to verify id_token: "
        ++ (GoError.foreign "oidc" "signature invalid").Error :=
  ⟨rfl, rfl, rfl,
    VerifyIDToken_wraps_verifier_error (NewClient (stubLib (none, none)) (fixedConfig false) 0)
      (Context.root 7) (stubOAuth2Token (GoValue.str "raw.id.token")) 0 1 2 "raw.id.token"
      (stubVerifier false) none (GoError.foreign "oidc" "signature invalid") rfl rfl rfl⟩

/-- C6. For every client and every `OAuth2Token` whose `Extra("id_token")` is the string
  `raw`: when `Verify` of the verifier the provider hands out succeeds with the token `T`,
  `VerifyIDToken` returns `T` itself and a nil error, and the one call of `Verify` it made
  was given the context of the caller and the string `raw`. -/
theorem VerifyIDToken_returns_verified_token {σ : Type} (c : Client σ) (ctx : Context)
    (oauthToken : OAuth2Token σ) (s s1 s2 : σ) (raw : String) (verifier : OIDCVerifier σ)
    (T : Option gooidc.IDToken)
    (hx : oauthToken.Extra "id_token" s = (GoValue.str raw, s1))
    (hp : c.provider.Verifier (some { ClientID := c.clientID }) s1 = (verifier, s2))
    (hv : (verifier.Verify ctx raw s2).1 = (T, none)) :
    (Client.VerifyIDToken c ctx oauthToken s).ret = (IDToken.ptr T, none) ∧
    (Client.VerifyIDToken c ctx oauthToken s).calls
      = [Call.Extra "id_token", Call.Verifier (some { ClientID := c.clientID }),
         Call.Verify ctx raw] ∧
    (Client.VerifyIDToken c ctx oauthToken s).state = (verifier.Verify ctx raw s2).2 := by
  simp [Client.VerifyIDToken, bind, Eff.bind, pure, Eff.pure, invoke, hx, hp, hv,
    GoValue.assertString]

/-- The witness of C6: the verifier double accepts every raw token. -/
theorem VerifyIDToken_returns_verified_token_witness :
    (stubOAuth2Token (GoValue.str "raw.id.token")).Extra "id_token" 0
      = (GoValue.str "raw.id.token", 1) ∧
    (NewClient (stubLib (none, none)) (fixedConfig true) 0).provider.Verifier
        (some { ClientID := (NewClient (stubLib (none, none)) (fixedConfig true) 0).clientID }) 1
      = (stubVerifier true, 2) ∧
    ((stubVerifier true).Verify (Context.root 7) "raw.id.token" 2).1
      = (some sampleIDToken, none) ∧
    (Client.VerifyIDToken (NewClient (stubLib (none, none)) (fixedConfig true) 0)
        (Context.root 7) (stubOAuth2Token (GoValue.str "raw.id.token")) 0).ret
      = (IDToken.ptr (some sampleIDToken), none) :=
  ⟨rfl, rfl, rfl,
    (VerifyIDToken_returns_verified_token (NewClient (stubLib (none, none)) (fixedConfig true) 0)
      (Context.root 7) (stubOAuth2Token (GoValue.str "raw.id.token")) 0 1 2 "raw.id.token"
      (stubVerifier true) (some sampleIDToken) rfl rfl rfl).1⟩

/-- C8. For every provider whose `Endpoint()` returns the authorization URL `A` and the
  token URL `B`: `FormatRequest` returns `AuthCodeURL` of an `oauth2.Config` with that
  pair as `Endpoint`, a URL that is `A` followed by `?` or `&` and the query; `Exchange`
  hands the library an `oauth2.Config` with that pair as `Endpoint`, so with the token
  URL `B`: it leaves the state that exchange of the library left, and returns its error
  wrapped, or its valid token. -/
theorem supplier_uses_provider_endpoint {σ : Type} (lib : OAuth2Lib σ)
    (config : σ → Config σ) (s0 : σ) (ctx : Context) (state code : String) (s s1 : σ)
    (A B : String) (style : Nat)
    (h : (config s).Provider.Endpoint s
      = ({ AuthURL := A, TokenURL := B, AuthStyle := style }, s1)) :
    (∃ oc : oauth2.Config,
      oc = { ClientID := (config s1).ClientID
             ClientSecret := (config s1).ClientSecret
             Endpoint := { AuthURL := A, TokenURL := B, AuthStyle := style }
             RedirectURL := (config s1).CallbackURL
             Scopes := (config s1).Scopes } ∧
      oc.Endpoint.AuthURL = A ∧
      (Client.FormatRequest (NewClient lib config s0) state s).ret
        = oc.AuthCodeURL state [] ∧
      (∃ query : String,
        (Client.FormatRequest (NewClient lib config s0) state s).ret = A ++ "?" ++ query ∨
        (Client.FormatRequest (NewClient lib config s0) state s).ret = A ++ "&" ++ query) ∧
      (Client.FormatRequest (NewClient lib config s0) state s).calls
        = [Call.Endpoint, Call.AuthCodeURL oc state []] ∧
      (Client.FormatRequest (NewClient lib config s0) state s).state = s1) ∧
    (∃ (oc : oauth2.Config) (ctx2 : Context),
      oc = { ClientID := (config s1).ClientID
             ClientSecret := (config s1).ClientSecret
             Endpoint := { AuthURL := A, TokenURL := B, AuthStyle := style }
             RedirectURL := (config s1).CallbackURL
             Scopes := (config s1).Scopes } ∧
      ctx2 = Context.WithValue ctx ContextKey.HTTPClient
        (ContextValue.httpClient
          { Transport := some { TLSClientConfig := (NewClient lib config s0).tlsConfig } }) ∧
      oc.Endpoint.TokenURL = B ∧
      (Client.Exchange lib (NewClient lib config s0) ctx code s).calls
        = [Call.Endpoint, Call.Exchange oc ctx2 code []] ∧
      (Client.Exchange lib (NewClient lib config s0) ctx code s).state
        = (lib.Exchange oc ctx2 code [] s1).2 ∧
      (∀ (token : Option oauth2.Token) (e : GoError),
        (lib.Exchange oc ctx2 code [] s1).1 = (token, some e) →
        (Client.Exchange lib (NewClient lib config s0) ctx code s).ret
          = (none, some (GoError.wrapError
              ("failed to exchange code for token: " ++ e.Error) e))) ∧
      (∀ token : Option oauth2.Token,
        (lib.Exchange oc ctx2 code [] s1).1 = (token, none) →
        lib.TokenValid token (lib.Exchange oc ctx2 code [] s1).2 = true →
        (Client.Exchange lib (NewClient lib config s0) ctx code s).ret = (token, none))) := by
  constructor
  · refine ⟨_, rfl, rfl, ?_, ?_, ?_, ?_⟩
    · rw [FormatRequest_of_NewClient, h]
    · rw [FormatRequest_of_NewClient, h]
      unfold oauth2.Config.AuthCodeURL
      refine ⟨url.Values.Encode (oauth2.Config.authCodeValues
        { ClientID := (config s1).ClientID
          ClientSecret := (config s1).ClientSecret
          Endpoint := { AuthURL := A, TokenURL := B, AuthStyle := style }
          RedirectURL := (config s1).CallbackURL
          Scopes := (config s1).Scopes } state []), ?_⟩
      by_cases hq : '?' ∈ A.data
      · right
        simp only [hq, if_true]
      · left
        simp only [hq, if_false]
    · rw [FormatRequest_of_NewClient, h]
    · rw [FormatRequest_of_NewClient, h]
  · have hcalls := Exchange_calls_of_NewClient lib config s0 ctx code s
    have hstate := Exchange_state_of_NewClient lib config s0 ctx code s
    have hret := Exchange_ret_of_NewClient lib config s0 ctx code s
    rw [h] at hcalls hstate hret
    refine ⟨_, _, rfl, rfl, rfl, hcalls, hstate, hret.1, ?_⟩
    intro token htok hvalid
    apply hret.2 token htok
    rw [hstate]
    exact hvalid

/-- The witness of C8: the provider double with fixed endpoints, and a library double
  that tells the token URL it was given: the token that comes back names the token URL
  of the provider. -/
theorem supplier_uses_provider_endpoint_witness :
    (rewrittenConfig 0).Provider.Endpoint 0
      = ({ AuthURL := "https://op.example/auth", TokenURL := "https://op.example/token",
           AuthStyle := 0 }, 1) ∧
    (Client.Exchange echoLib (NewClient echoLib rewrittenConfig 0) (Context.root 7)
        "code-1" 0).ret
      = (some { sampleToken with
                AccessToken := "client-1"
                RefreshToken := "https://op.example/token" }, none) ∧
    (Client.Exchange echoLib (NewClient echoLib rewrittenConfig 0) (Context.root 7)
        "code-1" 0).state = 2 :=
  match supplier_uses_provider_endpoint echoLib rewrittenConfig 0 (Context.root 7) "state-1"
      "code-1" 0 1 "https://op.example/auth" "https://op.example/token" 0 rfl with
  | ⟨_, _, _, rfl, rfl, _, _, hstate, _, hok⟩ => ⟨rfl, hok _ rfl rfl, hstate⟩

/-- C9, refuted as stated. The caller builds the client while its `Config` holds the
  client id `client-1` and then writes `client-2` to it. From then on `VerifyIDToken`
  still asks the provider for a verifier of `client-1` (the ID token it returns was
  issued to `client-1`), while `Exchange` hands the library an `oauth2.Config` with
  `client-2` (the token it returns is the one issued to `client-2`). -/
theorem clientID_diverges_after_Config_is_rewritten :
    (rewrittenConfig 0).ClientID = "client-1" ∧
    (rewrittenConfig 5).ClientID = "client-2" ∧
    (Client.VerifyIDToken (NewClient echoLib rewrittenConfig 0) (Context.root 7)
        (stubOAuth2Token (GoValue.str "raw.id.token")) 5).calls
      = [Call.Extra "id_token", Call.Verifier (some { ClientID := "client-1" }),
         Call.Verify (Context.root 7) "raw.id.token"] ∧
    (Client.VerifyIDToken (NewClient echoLib rewrittenConfig 0) (Context.root 7)
        (stubOAuth2Token (GoValue.str "raw.id.token")) 5).ret
      = (IDToken.ptr (some { sampleIDToken with Audience := ["client-1"] }), none) ∧
    (Client.Exchange echoLib (NewClient echoLib rewrittenConfig 0) (Context.root 7)
        "code-1" 5).calls
      = [Call.Endpoint,
         Call.Exchange
          { ClientID := "client-2", ClientSecret := "secret",
            Endpoint :=
              { AuthURL := "https://op.example/auth", TokenURL := "https://op.example/token",
                AuthStyle := 0 },
            RedirectURL := "https://rp.example/callback", Scopes := ["openid", "profile"] }
          (Context.WithValue (Context.root 7) ContextKey.HTTPClient
            (ContextValue.httpClient { Transport := some { TLSClientConfig := none } }))
          "code-1" []] ∧
    (Client.Exchange echoLib (NewClient echoLib rewrittenConfig 0) (Context.root 7)
        "code-1" 5).ret
      = (some { sampleToken with
                AccessToken := "client-2"
                RefreshToken := "https://op.example/token" }, none) ∧
    (Client.FormatRequest (NewClient echoLib rewrittenConfig 0) "state-1" 5).ret
      = "https://op.example/auth?client_id=client-2&redirect_uri=https%3A%2F%2Frp.example%2Fcallback&response_type=code&scope=openid+profile&state=state-1" ∧
    ("client-1" : String) ≠ "client-2" := by
  refine ⟨?_, ?_, ?_, ?_, ?_, ?_, ?_, ?_⟩
  · decide
  · decide
  · decide
  · decide
  · decide
  · decide
  · decide
  · decide

/-- C9, amended. For every client built by `NewClient` from a `*Config`: `VerifyIDToken`
  asks the provider for a verifier with the `ClientID` the `Config` held when `NewClient`
  ran, and verifies with that verifier; `FormatRequest` and `Exchange` give the library
  an `oauth2.Config` with the `ClientID` the `Config` holds when they run. On every call
  made while the `Config` holds the `ClientID` it held when `NewClient` ran, the two are
  the same. -/
theorem verification_clientID_is_exchange_clientID {σ : Type} (lib : OAuth2Lib σ)
    (config : σ → Config σ) (s0 : σ) (ctx : Context) (state code : String)
    (oauthToken : OAuth2Token σ) (raw : String) (s1 t1 s2 t2 s3 t3 : σ)
    (endpoint2 endpoint3 : oauth2.Endpoint)
    (hx : oauthToken.Extra "id_token" s1 = (GoValue.str raw, t1))
    (hep2 : (config s2).Provider.Endpoint s2 = (endpoint2, t2))
    (hep3 : (config s3).Provider.Endpoint s3 = (endpoint3, t3))
    (hsame2 : (config t2).ClientID = (config s0).ClientID)
    (hsame3 : (config t3).ClientID = (config s0).ClientID) :
    ((Client.VerifyIDToken (NewClient lib config s0) ctx oauthToken s1).calls
        = [Call.Extra "id_token", Call.Verifier (some { ClientID := (config s0).ClientID }),
           Call.Verify ctx raw] ∧
      (Client.VerifyIDToken (NewClient lib config s0) ctx oauthToken s1).state
        = (((config s0).Provider.Verifier (some { ClientID := (config s0).ClientID }) t1).1.Verify
            ctx raw
            ((config s0).Provider.Verifier (some { ClientID := (config s0).ClientID }) t1).2).2 ∧
      (∀ T : Option gooidc.IDToken,
        (((config s0).Provider.Verifier (some { ClientID := (config s0).ClientID }) t1).1.Verify
            ctx raw
            ((config s0).Provider.Verifier (some { ClientID := (config s0).ClientID }) t1).2).1
          = (T, none) →
        (Client.VerifyIDToken (NewClient lib config s0) ctx oauthToken s1).ret
          = (IDToken.ptr T, none))) ∧
    (∃ oc : oauth2.Config,
      oc = { ClientID := (config t2).ClientID
             ClientSecret := (config t2).ClientSecret
             Endpoint := endpoint2
             RedirectURL := (config t2).CallbackURL
             Scopes := (config t2).Scopes } ∧
      oc.ClientID = (config s0).ClientID ∧
      (Client.FormatRequest (NewClient lib config s0) state s2).ret
        = oc.AuthCodeURL state [] ∧
      (Client.FormatRequest (NewClient lib config s0) state s2).calls
        = [Call.Endpoint, Call.AuthCodeURL oc state []]) ∧
    (∃ (oc : oauth2.Config) (ctx2 : Context),
      oc = { ClientID := (config t3).ClientID
             ClientSecret := (config t3).ClientSecret
             Endpoint := endpoint3
             RedirectURL := (config t3).CallbackURL
             Scopes := (config t3).Scopes } ∧
      ctx2 = Context.WithValue ctx ContextKey.HTTPClient
        (ContextValue.httpClient
          { Transport := some { TLSClientConfig := (NewClient lib config s0).tlsConfig } }) ∧
      oc.ClientID = (config s0).ClientID ∧
      (Client.Exchange lib (NewClient lib config s0) ctx code s3).calls
        = [Call.Endpoint, Call.Exchange oc ctx2 code []] ∧
      (Client.Exchange lib (NewClient lib config s0) ctx code s3).state
        = (lib.Exchange oc ctx2 code [] t3).2 ∧
      (∀ token : Option oauth2.Token,
        (lib.Exchange oc ctx2 code [] t3).1 = (token, none) →
        lib.TokenValid token (lib.Exchange oc ctx2 code [] t3).2 = true →
        (Client.Exchange lib (NewClient lib config s0) ctx code s3).ret = (token, none))) := by
  refine ⟨⟨?_, ?_, ?_⟩, ?_, ?_⟩
  · rw [VerifyIDToken_calls]
    simp [hx, GoValue.assertString, NewClient]
  · cases hr : (((config s0).Provider.Verifier (some { ClientID := (config s0).ClientID })
        t1).1.Verify ctx raw
        ((config s0).Provider.Verifier (some { ClientID := (config s0).ClientID }) t1).2).1.2 with
    | none =>
      simp [Client.VerifyIDToken, NewClient, bind, Eff.bind, pure, Eff.pure, invoke, hx,
        GoValue.assertString, hr]
    | some e =>
      simp [Client.VerifyIDToken, NewClient, bind, Eff.bind, pure, Eff.pure, invoke, hx,
        GoValue.assertString, hr]
  · intro T hT
    simp [Client.VerifyIDToken, NewClient, bind, Eff.bind, pure, Eff.pure, invoke, hx,
      GoValue.assertString, hT]
  · refine ⟨_, rfl, hsame2, ?_, ?_⟩
    · rw [FormatRequest_of_NewClient, hep2]
    · rw [FormatRequest_of_NewClient, hep2]
  · have hcalls := Exchange_calls_of_NewClient lib config s0 ctx code s3
    have hstate := Exchange_state_of_NewClient lib config s0 ctx code s3
    have hret := Exchange_ret_of_NewClient lib config s0 ctx code s3
    rw [hep3] at hcalls hstate hret
    refine ⟨_, _, rfl, rfl, hsame3, hcalls, hstate, ?_⟩
    intro token htok hvalid
    apply hret.2 token htok
    rw [hstate]
    exact hvalid

/-- The witness of C9: the client is built in the state 0 and used in the states 1, 2
  and 3, before the caller writes to its `Config`; the ID token that comes back was
  issued to the client id the `Config` held when the client was built, and the OAuth2
  token to that same client id. -/
theorem verification_clientID_is_exchange_clientID_witness :
    (stubOAuth2Token (GoValue.str "raw.id.token")).Extra "id_token" 1
      = (GoValue.str "raw.id.token", 2) ∧
    (rewrittenConfig 2).Provider.Endpoint 2
      = ({ AuthURL := "https://op.example/auth", TokenURL := "https://op.example/token",
           AuthStyle := 0 }, 3) ∧
    (rewrittenConfig 3).Provider.Endpoint 3
      = ({ AuthURL := "https://op.example/auth", TokenURL := "https://op.example/token",
           AuthStyle := 0 }, 4) ∧
    (rewrittenConfig 3).ClientID = (rewrittenConfig 0).ClientID ∧
    (rewrittenConfig 4).ClientID = (rewrittenConfig 0).ClientID ∧
    (Client.VerifyIDToken (NewClient echoLib rewrittenConfig 0) (Context.root 7)
        (stubOAuth2Token (GoValue.str "raw.id.token")) 1).calls
      = [Call.Extra "id_token",
         Call.Verifier (some { ClientID := (rewrittenConfig 0).ClientID }),
         Call.Verify (Context.root 7) "raw.id.token"] ∧
    (Client.VerifyIDToken (NewClient echoLib rewrittenConfig 0) (Context.root 7)
        (stubOAuth2Token (GoValue.str "raw.id.token")) 1).ret
      = (IDToken.ptr (some { sampleIDToken with Audience := [(rewrittenConfig 0).ClientID] }),
         none) ∧
    (Client.Exchange echoLib (NewClient echoLib rewrittenConfig 0) (Context.root 7)
        "code-1" 3).ret
      = (some { sampleToken with
                AccessToken := (rewrittenConfig 0).ClientID
                RefreshToken := "https://op.example/token" }, none) :=
  match verification_clientID_is_exchange_clientID echoLib rewrittenConfig 0 (Context.root 7)
      "state-1" "code-1" (stubOAuth2Token (GoValue.str "raw.id.token")) "raw.id.token"
      1 2 2 3 3 4
      { AuthURL := "https://op.example/auth", TokenURL := "https://op.example/token",
        AuthStyle := 0 }
      { AuthURL := "https://op.example/auth", TokenURL := "https://op.example/token",
        AuthStyle := 0 }
      rfl rfl rfl (by decide) (by decide) with
  | ⟨⟨hcalls, _, hret⟩, _, ⟨_, _, rfl, rfl, _, _, _, hok⟩⟩ =>
    ⟨rfl, rfl, rfl, by decide, by decide, hcalls, hret _ rfl, hok _ rfl rfl⟩

/-- C10. For every client and whatever the exchange of its `oauth2` configuration returns:
  `Client.Exchange` returns a nil error exactly when the underlying exchange returned a
  nil error and a token that is valid; it then returns that very token, which is valid;
  otherwise it returns the nil token with its error. -/
theorem Exchange_all_or_nothing {σ : Type} (lib : OAuth2Lib σ) (c : Client σ)
    (ctx : Context) (code : String) (s : σ) :
    ((Client.Exchange lib c ctx code s).ret.2 = none ↔
      (((c.oauth2ConfigSupplier s).ret.Exchange
          (Context.WithValue ctx ContextKey.HTTPClient
            (ContextValue.httpClient { Transport := some { TLSClientConfig := c.tlsConfig } }))
          code [] (c.oauth2ConfigSupplier s).state).ret.2 = none ∧
       lib.TokenValid
          ((c.oauth2ConfigSupplier s).ret.Exchange
            (Context.WithValue ctx ContextKey.HTTPClient
              (ContextValue.httpClient { Transport := some { TLSClientConfig := c.tlsConfig } }))
            code [] (c.oauth2ConfigSupplier s).state).ret.1
          ((c.oauth2ConfigSupplier s).ret.Exchange
            (Context.WithValue ctx ContextKey.HTTPClient
              (ContextValue.httpClient { Transport := some { TLSClientConfig := c.tlsConfig } }))
            code [] (c.oauth2ConfigSupplier s).state).state = true)) ∧
    ((Client.Exchange lib c ctx code s).ret.2 = none →
      (Client.Exchange lib c ctx code s).ret.1
        = ((c.oauth2ConfigSupplier s).ret.Exchange
            (Context.WithValue ctx ContextKey.HTTPClient
              (ContextValue.httpClient { Transport := some { TLSClientConfig := c.tlsConfig } }))
            code [] (c.oauth2ConfigSupplier s).state).ret.1 ∧
      lib.TokenValid (Client.Exchange lib c ctx code s).ret.1
        (Client.Exchange lib c ctx code s).state = true) ∧
    ((Client.Exchange lib c ctx code s).ret.2 ≠ none →
      (Client.Exchange lib c ctx code s).ret.1 = none) := by
  cases hr : ((c.oauth2ConfigSupplier s).ret.Exchange
      (Context.WithValue ctx ContextKey.HTTPClient
        (ContextValue.httpClient { Transport := some { TLSClientConfig := c.tlsConfig } }))
      code [] (c.oauth2ConfigSupplier s).state).ret.2 with
  | some e =>
    simp [Client.Exchange, bind, Eff.bind, pure, Eff.pure, hr]
  | none =>
    cases hv : lib.TokenValid
        ((c.oauth2ConfigSupplier s).ret.Exchange
          (Context.WithValue ctx ContextKey.HTTPClient
            (ContextValue.httpClient { Transport := some { TLSClientConfig := c.tlsConfig } }))
          code [] (c.oauth2ConfigSupplier s).state).ret.1
        ((c.oauth2ConfigSupplier s).ret.Exchange
          (Context.WithValue ctx ContextKey.HTTPClient
            (ContextValue.httpClient { Transport := some { TLSClientConfig := c.tlsConfig } }))
          code [] (c.oauth2ConfigSupplier s).state).state with
    | false =>
      simp [Client.Exchange, bind, Eff.bind, pure, Eff.pure, observe, hr, hv]
    | true =>
      simp [Client.Exchange, bind, Eff.bind, pure, Eff.pure, observe, hr, hv]


end OidcClient
